import Mathlib

/-!
Verification development for the EDPS structured-data type inference and
statistical profiling core (Mission-KI/LP-EDPS).

The repository sources available are the service layer (src/edps/service.py),
the pydantic data model (src/edps/types.py) and the test suites.  The column
type resolver package (edps/analyzers/structured) is not among the available
sources, so its operations are modelled from the specification, guided by the
behaviour pinned down in the repository test suites; each such definition
carries a doc comment starting with the words Modelled from the spec.
-/

set_option maxRecDepth 4096

namespace EDPS

/-! ## Time scales and temporal consistency records -/

/-- The nine time scales of the temporal-consistency analysis
(spec section 4.4, the TemporalConsistency data model). -/
inductive TimeScale
  | years
  | months
  | weeks
  | days
  | hours
  | minutes
  | seconds
  | milliseconds
  | microseconds
  deriving DecidableEq, Repr

/-- One temporal-consistency record of a datetime column, from the data model
section of the spec and the edp TemporalConsistency objects consumed by
edps/service.py. -/
structure TemporalConsistency where
  timeScale : TimeScale
  differentAbundancies : Nat
  numberOfGaps : Nat
  deriving DecidableEq, Repr

/-- The periodicity search order, coarsest time unit first
(years > months > weeks > days > hours > minutes > seconds > milliseconds
> microseconds). -/
def periodicityOrder : List TimeScale :=
  [.years, .months, .weeks, .days, .hours, .minutes, .seconds, .milliseconds,
   .microseconds]

/-- Modelled from the spec: determine_periodicity (imported by
edps/service.py from edps.analyzers.structured, a module absent from the
available sources).  Per spec section 4.5 it picks the coarsest stable scale:
the largest time unit whose summed numberOfGaps is zero; none when no scale
is stable.  The differentAbundancies argument is passed by the service but
does not influence the zero-gap threshold policy stated by the spec. -/
def determine_periodicity (numberOfGaps : TimeScale → Nat)
    (differentAbundancies : TimeScale → Nat) : Option TimeScale :=
  let _ := differentAbundancies
  if numberOfGaps .years = 0 then some .years
  else if numberOfGaps .months = 0 then some .months
  else if numberOfGaps .weeks = 0 then some .weeks
  else if numberOfGaps .days = 0 then some .days
  else if numberOfGaps .hours = 0 then some .hours
  else if numberOfGaps .minutes = 0 then some .minutes
  else if numberOfGaps .seconds = 0 then some .seconds
  else if numberOfGaps .milliseconds = 0 then some .milliseconds
  else if numberOfGaps .microseconds = 0 then some .microseconds
  else none

/-- Gap count of one record list at one time scale: the contribution a single
datetime column makes to the component-wise sum built by
_get_overall_temporal_consistency (edps/service.py, pandas index
alignment on the timeScale labels). -/
def gapsAt (records : List TemporalConsistency) (s : TimeScale) : Nat :=
  (records.filter (fun r => r.timeScale = s)).foldl
    (fun acc r => acc + r.numberOfGaps) 0

/-- Abundancy count of one record list at one time scale. -/
def abundanciesAt (records : List TemporalConsistency) (s : TimeScale) : Nat :=
  (records.filter (fun r => r.timeScale = s)).foldl
    (fun acc r => acc + r.differentAbundancies) 0

/-- Component-wise sum of numberOfGaps per time scale over all datetime
columns of an asset (edps/service.py, _get_overall_temporal_consistency:
sum of the per-column dataframes). -/
def sumNumberOfGaps (cols : List (List TemporalConsistency)) (s : TimeScale) :
    Nat :=
  cols.foldl (fun acc records => acc + gapsAt records s) 0

/-- Component-wise sum of differentAbundancies per time scale over all
datetime columns of an asset. -/
def sumDifferentAbundancies (cols : List (List TemporalConsistency))
    (s : TimeScale) : Nat :=
  cols.foldl (fun acc records => acc + abundanciesAt records s) 0

/-- Embedding of _get_overall_temporal_consistency (edps/service.py lines
210 to 220): iterate the temporal consistencies of every datetime column of
every structured dataset, skipping columns with no records; return none when
there are none at all, else hand the component-wise sums to the periodicity
decision.  The decision function is a parameter because
determine_periodicity itself is not among the available sources. -/
def get_overall_temporal_consistency
    (dp : (TimeScale → Nat) → (TimeScale → Nat) → Option TimeScale)
    (cols : List (List TemporalConsistency)) : Option TimeScale :=
  let nonEmpty := cols.filter (fun records => !records.isEmpty)
  if nonEmpty.isEmpty then none
  else dp (sumNumberOfGaps nonEmpty) (sumDifferentAbundancies nonEmpty)

/-- The temporal-consistency records of the einfahrt column of the pickle
test asset, exactly as asserted by _assert_pickle_temporal_consistencies in
tests/edps/test_edps.py (order microseconds to years, as emitted by the
analyzer). -/
def einfahrtRecords : List TemporalConsistency :=
  [⟨.microseconds, 50, 49⟩, ⟨.milliseconds, 50, 49⟩, ⟨.seconds, 50, 48⟩,
   ⟨.minutes, 47, 44⟩, ⟨.hours, 12, 3⟩, ⟨.days, 1, 0⟩, ⟨.weeks, 1, 0⟩,
   ⟨.months, 1, 0⟩, ⟨.years, 1, 0⟩]

/-- The periodicity the repository test suite asserts for the einfahrt
column and for the whole pickle asset (tests/edps/test_edps.py,
test_analyse_pickle). -/
def einfahrtExpectedPeriodicity : Option TimeScale := some .hours

/-! ## HTML escaping of user supplied data (edps/types.py) -/

/-- The data shapes recursively_escape_strings (src/edps/types.py lines 171
to 185) recurses over: None, bool, datetime, AnyUrl, str, list, dict and
pydantic BaseModel values.  Datetime payloads are opaque here; a BaseModel
is its list of named fields (model_dump produces the field dictionary and
the model class is reconstructed from the escaped dictionary). -/
inductive PyData
  | none
  | bool (b : Bool)
  | datetime (t : Int)
  | url (s : String)
  | str (s : String)
  | list (items : List PyData)
  | dict (entries : List (String × PyData))
  | model (fields : List (String × PyData))

/-- Embedding of html.escape with quote=True as used by
recursively_escape_strings: the five markup characters are replaced by their
entity references, all other characters pass through.  The sequential
replacements of the library function agree with this per-character map. -/
def htmlEscapeChar (c : Char) : List Char :=
  if c = Char.ofNat 38 then [Char.ofNat 38, 'a', 'm', 'p', ';']
  else if c = Char.ofNat 60 then [Char.ofNat 38, 'l', 't', ';']
  else if c = Char.ofNat 62 then [Char.ofNat 38, 'g', 't', ';']
  else if c = Char.ofNat 34 then [Char.ofNat 38, 'q', 'u', 'o', 't', ';']
  else if c = Char.ofNat 39 then
    [Char.ofNat 38, Char.ofNat 35, 'x', '2', '7', ';']
  else [c]

/-- html.escape on a whole string. -/
def htmlEscape (s : String) : String :=
  ⟨(s.data.map htmlEscapeChar).flatten⟩

mutual

/-- Embedding of recursively_escape_strings (src/edps/types.py lines 171 to
185): None, bool, datetime and AnyUrl values pass through unchanged, strings
are HTML escaped, lists, dictionaries and models are traversed recursively
(dictionary values are escaped, keys are kept). -/
def recursively_escape_strings : PyData → PyData
  | .none => .none
  | .bool b => .bool b
  | .datetime t => .datetime t
  | .url s => .url s
  | .str s => .str (htmlEscape s)
  | .list items => .list (escapeList items)
  | .dict entries => .dict (escapeEntries entries)
  | .model fields => .model (escapeEntries fields)

/-- Recursive escaping of the items of a python list. -/
def escapeList : List PyData → List PyData
  | [] => []
  | x :: xs => recursively_escape_strings x :: escapeList xs

/-- Recursive escaping of the values of a python dictionary; the keys are
kept unchanged (edps/types.py keeps the dictionary keys as they are). -/
def escapeEntries : List (String × PyData) → List (String × PyData)
  | [] => []
  | (k, v) :: xs => (k, recursively_escape_strings v) :: escapeEntries xs

end

mutual

/-- Specification-side relation for claim C10, stated from the words of the
claim: the output HTML-escapes every string value reachable in the input,
including strings nested inside lists, dicts and nested models, while None,
bool, datetime and URL values pass through unchanged. -/
inductive EscapedOf : PyData → PyData → Prop
  | none : EscapedOf .none .none
  | bool (b : Bool) : EscapedOf (.bool b) (.bool b)
  | datetime (t : Int) : EscapedOf (.datetime t) (.datetime t)
  | url (s : String) : EscapedOf (.url s) (.url s)
  | str (s : String) : EscapedOf (.str s) (.str (htmlEscape s))
  | list {xs ys : List PyData} (h : EscapedListOf xs ys) :
      EscapedOf (.list xs) (.list ys)
  | dict {xs ys : List (String × PyData)} (h : EscapedEntriesOf xs ys) :
      EscapedOf (.dict xs) (.dict ys)
  | model {xs ys : List (String × PyData)} (h : EscapedEntriesOf xs ys) :
      EscapedOf (.model xs) (.model ys)

/-- Pointwise escaping relation on python lists. -/
inductive EscapedListOf : List PyData → List PyData → Prop
  | nil : EscapedListOf [] []
  | cons {x y : PyData} {xs ys : List PyData} (h : EscapedOf x y)
      (t : EscapedListOf xs ys) : EscapedListOf (x :: xs) (y :: ys)

/-- Pointwise escaping relation on dictionary entries: keys are unchanged,
values are related. -/
inductive EscapedEntriesOf :
    List (String × PyData) → List (String × PyData) → Prop
  | nil : EscapedEntriesOf [] []
  | cons {k : String} {v w : PyData} {xs ys : List (String × PyData)}
      (h : EscapedOf v w) (t : EscapedEntriesOf xs ys) :
      EscapedEntriesOf ((k, v) :: xs) ((k, w) :: ys)

end

/-! ## Raw cells and textual parsing

The column type resolver package (edps/analyzers/structured/type_parser.py)
is not among the available sources; the definitions below are modelled from
spec sections 4.1 and 4.2, with every behaviour that the repository test
suite pins down (tests/edps/analyzers/test_determine_types.py) followed
exactly.  A raw cell is either null or a textual value. -/

abbrev RawCell := Option String

/-- Number of non-null cells of a raw column. -/
def countSomeStr (cells : List RawCell) : Nat := (cells.filterMap id).length

/-- Decimal digit value of a character. -/
def digitVal (c : Char) : Option Nat :=
  if c.isDigit then some (c.toNat - 48) else none

/-- Parse exactly two digits. -/
def parse2 : List Char → Option (Nat × List Char)
  | a :: b :: rest =>
    match digitVal a, digitVal b with
    | some x, some y => some (10 * x + y, rest)
    | _, _ => none
  | _ => none

/-- Parse exactly three digits. -/
def parse3 : List Char → Option (Nat × List Char)
  | a :: b :: c :: rest =>
    match digitVal a, digitVal b, digitVal c with
    | some x, some y, some z => some (100 * x + 10 * y + z, rest)
    | _, _, _ => none
  | _ => none

/-- Parse exactly four digits. -/
def parse4 : List Char → Option (Nat × List Char)
  | a :: b :: c :: d :: rest =>
    match digitVal a, digitVal b, digitVal c, digitVal d with
    | some w, some x, some y, some z =>
        some (1000 * w + 100 * x + 10 * y + z, rest)
    | _, _, _, _ => none
  | _ => none

/-- Consume one expected literal character. -/
def expectChar (c : Char) : List Char → Option (List Char)
  | x :: rest => if x = c then some rest else none
  | [] => none

/-- Broken-down datetime fields produced by the datetime parsers. -/
structure DateTimeFields where
  year : Nat
  month : Nat
  day : Nat
  hour : Nat
  minute : Nat
  second : Nat
  millisecond : Nat
  deriving DecidableEq, Repr

/-- Basic calendar field validation (the repository tests only exercise
valid calendar dates, so day-in-month subtleties are not modelled). -/
def validDate (y m d : Nat) : Bool :=
  decide (1 ≤ m) && decide (m ≤ 12) && decide (1 ≤ d) && decide (d ≤ 31) &&
  decide (1 ≤ y)

/-- Basic time-of-day field validation. -/
def validTime (h mi s : Nat) : Bool :=
  decide (h ≤ 23) && decide (mi ≤ 59) && decide (s ≤ 59)

/-- Days since 1970-01-01 of a civil date (proleptic Gregorian calendar,
the usual era-based algorithm with truncating integer division). -/
def daysFromCivil (y m d : Int) : Int :=
  let yAdj := y - (if m ≤ 2 then 1 else 0)
  let era := (if 0 ≤ yAdj then yAdj else yAdj - 399) / 400
  let yoe := yAdj - era * 400
  let doy := (153 * (m + (if 2 < m then -3 else 9)) + 2) / 5 + d - 1
  let doe := yoe * 365 + yoe / 4 - yoe / 100 + doy
  era * 146097 + doe - 719468

/-- Milliseconds since the epoch of a broken-down wall-clock datetime. -/
def epochMillis (f : DateTimeFields) : Int :=
  (((daysFromCivil f.year f.month f.day * 24 + f.hour) * 60 + f.minute) * 60
    + f.second) * 1000 + f.millisecond

/-! ## Datetime format converters (spec section 4.1) -/

/-- Subtype classification of a resolved datetime column, as exposed by
DatetimeColumnInfo.kind in the tests. -/
inductive DatetimeKind
  | DATE
  | DATETIME
  | TIME
  | UNKNOWN
  deriving DecidableEq, Repr

/-- The explicit locale datetime patterns of the fixed converter list that
the claims and the tests exercise: German day-first patterns with and
without time of day, US month-first patterns, and pure time-of-day
patterns. -/
inductive DTFormat
  | deDmYHMS
  | deDmYHM
  | deDmY
  | usMdYHMS
  | usMdY
  | timeHMS
  | timeHM
  deriving DecidableEq, Repr

/-- Datetime subtype carried by each fixed pattern. -/
def DTFormat.kind : DTFormat → DatetimeKind
  | .deDmYHMS => .DATETIME
  | .deDmYHM => .DATETIME
  | .usMdYHMS => .DATETIME
  | .deDmY => .DATE
  | .usMdY => .DATE
  | .timeHMS => .TIME
  | .timeHM => .TIME

/-- Parser for the pattern day dot month dot year blank H colon M colon S. -/
def parseDeDmYHMS (s : List Char) : Option DateTimeFields := do
  let (d, s) ← parse2 s
  let s ← expectChar '.' s
  let (m, s) ← parse2 s
  let s ← expectChar '.' s
  let (y, s) ← parse4 s
  let s ← expectChar ' ' s
  let (h, s) ← parse2 s
  let s ← expectChar ':' s
  let (mi, s) ← parse2 s
  let s ← expectChar ':' s
  let (sec, s) ← parse2 s
  if s = [] ∧ validDate y m d ∧ validTime h mi sec then
    some ⟨y, m, d, h, mi, sec, 0⟩
  else none

/-- Parser for the pattern day dot month dot year blank H colon M. -/
def parseDeDmYHM (s : List Char) : Option DateTimeFields := do
  let (d, s) ← parse2 s
  let s ← expectChar '.' s
  let (m, s) ← parse2 s
  let s ← expectChar '.' s
  let (y, s) ← parse4 s
  let s ← expectChar ' ' s
  let (h, s) ← parse2 s
  let s ← expectChar ':' s
  let (mi, s) ← parse2 s
  if s = [] ∧ validDate y m d ∧ validTime h mi 0 then
    some ⟨y, m, d, h, mi, 0, 0⟩
  else none

/-- Parser for the pattern day dot month dot year. -/
def parseDeDmY (s : List Char) : Option DateTimeFields := do
  let (d, s) ← parse2 s
  let s ← expectChar '.' s
  let (m, s) ← parse2 s
  let s ← expectChar '.' s
  let (y, s) ← parse4 s
  if s = [] ∧ validDate y m d then some ⟨y, m, d, 0, 0, 0, 0⟩ else none

/-- Parser for the pattern month slash day slash year blank H colon M colon
S. -/
def parseUsMdYHMS (s : List Char) : Option DateTimeFields := do
  let (m, s) ← parse2 s
  let s ← expectChar '/' s
  let (d, s) ← parse2 s
  let s ← expectChar '/' s
  let (y, s) ← parse4 s
  let s ← expectChar ' ' s
  let (h, s) ← parse2 s
  let s ← expectChar ':' s
  let (mi, s) ← parse2 s
  let s ← expectChar ':' s
  let (sec, s) ← parse2 s
  if s = [] ∧ validDate y m d ∧ validTime h mi sec then
    some ⟨y, m, d, h, mi, sec, 0⟩
  else none

/-- Parser for the pattern month dash day dash year. -/
def parseUsMdY (s : List Char) : Option DateTimeFields := do
  let (m, s) ← parse2 s
  let s ← expectChar '-' s
  let (d, s) ← parse2 s
  let s ← expectChar '-' s
  let (y, s) ← parse4 s
  if s = [] ∧ validDate y m d then some ⟨y, m, d, 0, 0, 0, 0⟩ else none

/-- Parser for the pure time-of-day pattern H colon M colon S (strptime
leaves the date fields at their 1900-01-01 defaults). -/
def parseTimeHMS (s : List Char) : Option DateTimeFields := do
  let (h, s) ← parse2 s
  let s ← expectChar ':' s
  let (mi, s) ← parse2 s
  let s ← expectChar ':' s
  let (sec, s) ← parse2 s
  if s = [] ∧ validTime h mi sec then some ⟨1900, 1, 1, h, mi, sec, 0⟩
  else none

/-- Parser for the pure time-of-day pattern H colon M. -/
def parseTimeHM (s : List Char) : Option DateTimeFields := do
  let (h, s) ← parse2 s
  let s ← expectChar ':' s
  let (mi, s) ← parse2 s
  if s = [] ∧ validTime h mi 0 then some ⟨1900, 1, 1, h, mi, 0, 0⟩ else none

/-- Dispatch from a fixed pattern to its parser. -/
def parseFormat : DTFormat → List Char → Option DateTimeFields
  | .deDmYHMS => parseDeDmYHMS
  | .deDmYHM => parseDeDmYHM
  | .deDmY => parseDeDmY
  | .usMdYHMS => parseUsMdYHMS
  | .usMdY => parseUsMdY
  | .timeHMS => parseTimeHMS
  | .timeHM => parseTimeHM

/-! ## The ISO-8601 converter (spec section 4.1) -/

/-- Parse the date part of an ISO-8601 value: either year dash month dash
day or the compact eight-digit form. -/
def parseIsoDate (s : List Char) : Option (Nat × Nat × Nat × List Char) := do
  let (y, rest) ← parse4 s
  match rest with
  | '-' :: r2 => do
      let (m, r3) ← parse2 r2
      let r4 ← expectChar '-' r3
      let (d, r5) ← parse2 r4
      some (y, m, d, r5)
  | _ => do
      let (m, r3) ← parse2 rest
      let (d, r5) ← parse2 r3
      some (y, m, d, r5)

/-- Parse the time part of an ISO-8601 value: hours and minutes with
optional seconds and optional three-digit fraction. -/
def parseIsoTime (s : List Char) :
    Option (Nat × Nat × Nat × Nat × List Char) := do
  let (h, s) ← parse2 s
  let s ← expectChar ':' s
  let (mi, s) ← parse2 s
  match expectChar ':' s with
  | some s2 => do
      let (sec, s3) ← parse2 s2
      match s3 with
      | '.' :: s4 => do
          let (ms, s5) ← parse3 s4
          some (h, mi, sec, ms, s5)
      | _ => some (h, mi, sec, 0, s3)
  | none => some (h, mi, 0, 0, s)

/-- Parse the optional timezone suffix of an ISO-8601 value as an offset in
minutes: Z, or a sign followed by four digits. -/
def parseIsoOffset (s : List Char) : Option (Option Int × List Char) :=
  match s with
  | [] => some (none, [])
  | 'Z' :: rest => some (some 0, rest)
  | '+' :: rest => do
      let (hh, r) ← parse2 rest
      let (mm, r2) ← parse2 r
      some (some ((hh * 60 + mm : Nat) : Int), r2)
  | '-' :: rest => do
      let (hh, r) ← parse2 rest
      let (mm, r2) ← parse2 r
      some (some (-((hh * 60 + mm : Nat) : Int)), r2)
  | other => some (none, other)

/-- Modelled from the spec: the value grammar of the Datetime-ISO converter
(ISO-8601 and compact ISO variants, optional fractional seconds, optional Z
or numeric offset).  Returns the broken-down wall-clock fields and the
offset, in minutes, when one is present. -/
def parseIso (s : List Char) : Option (DateTimeFields × Option Int) := do
  let (y, m, d, rest) ← parseIsoDate s
  match rest with
  | [] => if validDate y m d then some (⟨y, m, d, 0, 0, 0, 0⟩, none) else none
  | c :: r2 =>
    if c = 'T' ∨ c = ' ' then do
      let (h, mi, sec, ms, r3) ← parseIsoTime r2
      let (off, r4) ← parseIsoOffset r3
      if r4 = [] ∧ validDate y m d ∧ validTime h mi sec then
        some (⟨y, m, d, h, mi, sec, ms⟩, off)
      else none
    else none

/-! ## The numeric converter (spec section 4.1) -/

/-- Greedily take decimal digits. -/
def takeDigits : List Char → List Nat × List Char
  | [] => ([], [])
  | c :: rest =>
    match digitVal c with
    | some d => let (ds, r) := takeDigits rest; (d :: ds, r)
    | none => ([], c :: rest)

/-- Value of a digit sequence. -/
def digitsToNat (ds : List Nat) : Nat := ds.foldl (fun a d => 10 * a + d) 0

/-- Parse an unsigned decimal number with the given decimal separator; the
whole input must be consumed. -/
def parseUnsignedDec (decSep : Char) (s : List Char) : Option Rat :=
  let (ds, rest) := takeDigits s
  if ds.isEmpty then none
  else
    match rest with
    | [] => some (digitsToNat ds : Rat)
    | c :: r2 =>
      if c = decSep then
        let (fs, r3) := takeDigits r2
        if fs.isEmpty ∨ ¬ r3.isEmpty then none
        else
          some ((digitsToNat ds : Rat) +
            (digitsToNat fs : Rat) / ((10 : Rat) ^ fs.length))
      else none

/-- Parse a decimal number with optional sign. -/
def parseSignedDec (decSep : Char) (s : List Char) : Option Rat :=
  match s with
  | '-' :: rest => (parseUnsignedDec decSep rest).map (fun q => -q)
  | '+' :: rest => parseUnsignedDec decSep rest
  | other => parseUnsignedDec decSep other

/-- Modelled from the spec: value parsing of the numeric converter, trying
the dot-decimal heuristic first and the comma-decimal heuristic second.
Thousand separators, scientific notation, native booleans and complex
numbers are not exercised by the claims and are left out. -/
def parseNumeric (s : String) : Option Rat :=
  match parseSignedDec '.' s.data with
  | some q => some q
  | none => parseSignedDec ',' s.data

/-! ## Numeric downcasting (spec section 4.1) -/

/-- The numeric representations the downcast can choose from. -/
inductive NumKind
  | uint8
  | uint16
  | uint32
  | uint64
  | int8
  | int16
  | int32
  | int64
  | float32
  | float64
  deriving DecidableEq, Repr

/-- A rational value is an integer. -/
def isIntVal (q : Rat) : Bool := q.den == 1

/-- An integer rational fits an unsigned integer of the given bit width. -/
def fitsUnsignedBits (bits : Nat) (q : Rat) : Bool :=
  q.den == 1 && decide (0 ≤ q.num) && decide (q.num < 2 ^ bits)

/-- An integer rational fits a signed integer of the given bit width. -/
def fitsSignedBits (bits : Nat) (q : Rat) : Bool :=
  q.den == 1 && decide (-(2 ^ (bits - 1)) ≤ q.num) &&
  decide (q.num < 2 ^ (bits - 1))

/-- Base-two logarithm computed with structural fuel (so that it reduces
inside the kernel). -/
def log2Fuel : Nat → Nat → Nat
  | 0, _ => 0
  | fuel + 1, n => if 2 ≤ n then log2Fuel fuel (n / 2) + 1 else 0

/-- Base-two logarithm, rounded down. -/
def natLog2 (n : Nat) : Nat := log2Fuel n n

/-- A natural number is an exact power of two. -/
def isPow2Nat (n : Nat) : Bool := n != 0 && n == 2 ^ natLog2 n

/-- Odd part and dyadic valuation of a natural number, computed with
structural fuel. -/
def oddPartAux : Nat → Nat → Nat × Nat
  | 0, n => (n, 0)
  | fuel + 1, n =>
    if n != 0 && n % 2 == 0 then
      let p := oddPartAux fuel (n / 2)
      (p.1, p.2 + 1)
    else (n, 0)

/-- Odd part and dyadic valuation of a natural number. -/
def oddPart (n : Nat) : Nat × Nat := oddPartAux n n

/-- Modelled from the spec: exact representability of a rational value in
the IEEE binary32 format, the round-trip safety check that decides between
the 32 and 64 bit float widths. -/
def isFloat32Exact (q : Rat) : Bool :=
  if q = 0 then true
  else if isPow2Nat q.den then
    let k := natLog2 q.den
    let p := oddPart q.num.natAbs
    let e : Int := (p.2 : Int) - (k : Int)
    decide (p.1 * 2 ^ (e - 104).toNat < 2 ^ 24) && decide (-149 ≤ e)
  else false

/-- Modelled from the spec: get_smallest_down_cast_able_type of the numeric
converter picks the smallest safe representation holding all parsed values
without precision loss: the smallest unsigned integer width when all values
are non-negative integers, else the smallest signed integer width when all
values are integers, else a float width with 32 bit preferred when every
value round-trips exactly. -/
def get_smallest_down_cast_able_type (vals : List Rat) : NumKind :=
  if vals.all (fun q => isIntVal q && decide (0 ≤ q.num)) then
    if vals.all (fitsUnsignedBits 8) then .uint8
    else if vals.all (fitsUnsignedBits 16) then .uint16
    else if vals.all (fitsUnsignedBits 32) then .uint32
    else if vals.all (fitsUnsignedBits 64) then .uint64
    else .float64
  else if vals.all isIntVal then
    if vals.all (fitsSignedBits 8) then .int8
    else if vals.all (fitsSignedBits 16) then .int16
    else if vals.all (fitsSignedBits 32) then .int32
    else if vals.all (fitsSignedBits 64) then .int64
    else .float64
  else if vals.all isFloat32Exact then .float32
  else .float64

/-! ## Converters and the column type resolver (spec section 4.2) -/

/-- The value converter strategy type: numeric, Datetime-ISO, one fixed
locale datetime pattern, or the string fallback. -/
inductive Converter
  | numeric
  | datetimeIso
  | datetimeFmt (f : DTFormat)
  | stringConv
  deriving DecidableEq, Repr

/-- Modelled from the spec: the fixed precedence list of converters that
compete for a column, in the order numeric, ISO datetime, locale datetime
patterns.  The string fallback does not compete and is applied by the
policy steps below. -/
def converterList : List Converter :=
  [.numeric, .datetimeIso,
   .datetimeFmt .deDmYHMS, .datetimeFmt .deDmYHM, .datetimeFmt .deDmY,
   .datetimeFmt .usMdYHMS, .datetimeFmt .usMdY,
   .datetimeFmt .timeHMS, .datetimeFmt .timeHM]

/-- Position of a converter in the fixed precedence order. -/
def converterIndex : Converter → Nat
  | .numeric => 0
  | .datetimeIso => 1
  | .datetimeFmt .deDmYHMS => 2
  | .datetimeFmt .deDmYHM => 3
  | .datetimeFmt .deDmY => 4
  | .datetimeFmt .usMdYHMS => 5
  | .datetimeFmt .usMdY => 6
  | .datetimeFmt .timeHMS => 7
  | .datetimeFmt .timeHM => 8
  | .stringConv => 9

/-- A typed cell value produced by a conversion. -/
inductive CellValue
  | num (q : Rat)
  | dt (epochMs : Int)
  | str (s : String)
  deriving DecidableEq, Repr

/-- Timezone character of a converted datetime column, the analogue of the
pandas dtype: timezone-naive, normalized to UTC, or carrying a fixed
offset in minutes.  The fixed offset form exists so that the preservation
behaviour claimed by the spec can be stated; the conversion pinned by the
repository tests never produces it. -/
inductive DTypeTz
  | naive
  | utc
  | fixedOffset (minutes : Int)
  deriving DecidableEq, Repr

/-- The timezone offsets of the ISO-parseable entries of a column, in cell
order; none stands for an entry without an offset. -/
def isoOffsets (cells : List RawCell) : List (Option Int) :=
  cells.filterMap (fun oc =>
    match oc with
    | some s => (parseIso s.data).map (fun p => p.2)
    | none => none)

/-- Some ISO-parseable entries of the column carry an offset and some do
not (the condition of the assuming-UTC warning). -/
def isoMixedTz (cells : List RawCell) : Bool :=
  (isoOffsets cells).any (fun o => o.isSome) &&
  (isoOffsets cells).any (fun o => o.isNone)

/-- At least one ISO-parseable entry of the column carries an offset (the
condition under which the converted column is timezone-aware). -/
def isoAnyTz (cells : List RawCell) : Bool :=
  (isoOffsets cells).any (fun o => o.isSome)

/-- One cell is acceptable to one converter. -/
def cellParsesWith (c : Converter) (s : String) : Bool :=
  match c with
  | .numeric => (parseNumeric s).isSome
  | .datetimeIso => (parseIso s.data).isSome
  | .datetimeFmt f => (parseFormat f s.data).isSome
  | .stringConv => true

/-- The cheap counting pass of a converter: how many non-null cells it can
parse (count_valid_rows of the spec). -/
def countValidRows (c : Converter) (cells : List RawCell) : Nat :=
  (cells.filterMap id).countP (cellParsesWith c)

/-- Full conversion of one non-null cell by one converter.  ISO datetime
values are shifted to UTC when the column is timezone-aware; entries
without an offset are assumed to be UTC. -/
def convertCellWith (c : Converter) (anyOffset : Bool) (s : String) :
    Option CellValue :=
  match c with
  | .numeric => (parseNumeric s).map .num
  | .datetimeIso =>
      (parseIso s.data).map (fun p =>
        if anyOffset then .dt (epochMillis p.1 - p.2.getD 0 * 60000)
        else .dt (epochMillis p.1))
  | .datetimeFmt f => (parseFormat f s.data).map (fun fl => .dt (epochMillis fl))
  | .stringConv => some (.str s)

/-- Full conversion of a raw column by one converter: null cells stay null,
cells the converter cannot parse become null. -/
def convertColumn (c : Converter) (cells : List RawCell) :
    List (Option CellValue) :=
  cells.map (fun oc => oc.bind (convertCellWith c (isoAnyTz cells)))

/-- Number of non-null cells of a converted column. -/
def countSomeCells (col : List (Option CellValue)) : Nat :=
  (col.filterMap id).length

/-- The earliest converter of a list achieving the maximal count: later
converters replace the current best only with a strictly larger count. -/
def firstMax (cnt : Converter → Nat) : List Converter → Option Converter
  | [] => none
  | c :: rest =>
    match firstMax cnt rest with
    | none => some c
    | some b => if cnt c < cnt b then some b else some c

/-- The winning candidate of the counting pass over the fixed precedence
list (spec section 4.2 step 3: maximal valid count, ties broken by the
earliest position in the precedence list). -/
def bestConverter (cnt : Converter → Nat) : Converter :=
  (firstMax cnt converterList).getD .stringConv

/-- The per-column counting function handed to the winner selection. -/
def columnCounts (cells : List RawCell) : Converter → Nat :=
  fun c => countValidRows c cells

/-- Modelled from the spec: the minimum-support and clear-majority policy
of spec section 4.2 step 4, in the form pinned by the tests
test_determine_mixed_datetimes2 and test_determine_mixed_datetimes3: the
best candidate is accepted only when it parses a strict majority of the
non-null entries; this in particular rejects a candidate with zero valid
rows. -/
def majorityAccepted (cells : List RawCell) : Bool :=
  decide (countSomeStr cells <
    2 * countValidRows (bestConverter (columnCounts cells)) cells)

/-- Datetime subtype of a converter, when it is a fixed pattern. -/
def Converter.fmtKind : Converter → Option DatetimeKind
  | .datetimeFmt f => some f.kind
  | _ => none

/-- Modelled from the spec: the final winner of a column.  The best
candidate is kept when it has a clear majority, except that a pure
time-of-day pattern is demoted to the string fallback (spec section 4.1
edge-case policy); without a clear majority the string fallback wins. -/
def winnerOf (cells : List RawCell) : Converter :=
  let best := bestConverter (columnCounts cells)
  if majorityAccepted cells ∧ best.fmtKind ≠ some .TIME then best
  else .stringConv

/-- Format descriptor of a resolved datetime column: the ISO8601 sentinel
or one fixed pattern. -/
inductive FormatDesc
  | iso8601
  | pattern (f : DTFormat)
  deriving DecidableEq, Repr

/-- The resolver verdict for one column (the ColumnInfo variant of the data
model section of the spec). -/
inductive ColumnInfo
  | numeric (kind : NumKind)
  | datetime (format : FormatDesc) (kind : DatetimeKind)
  | string
  deriving DecidableEq, Repr

/-- A ColumnInfo is the datetime variant. -/
def ColumnInfo.isDatetime : ColumnInfo → Bool
  | .datetime _ _ => true
  | _ => false

/-- The parsed numeric values of a column (non-null cells the numeric
converter accepts). -/
def parsedNumerics (cells : List RawCell) : List Rat :=
  cells.filterMap (fun oc =>
    match oc with
    | some s => parseNumeric s
    | none => none)

/-- ColumnInfo produced for a winning converter. -/
def infoFor (cells : List RawCell) : Converter → ColumnInfo
  | .numeric => .numeric (get_smallest_down_cast_able_type (parsedNumerics cells))
  | .datetimeIso => .datetime .iso8601 .UNKNOWN
  | .datetimeFmt f => .datetime (.pattern f) f.kind
  | .stringConv => .string

/-- Converter descriptor as it appears inside warning messages. -/
inductive ConverterDesc
  | numericColumnConverter
  | datetimeIsoConverter
  | datetimeColumnConverter (f : DTFormat) (k : DatetimeKind)
  | stringColumnConverter
  deriving DecidableEq, Repr

/-- Descriptor of a converter. -/
def describeConverter : Converter → ConverterDesc
  | .numeric => .numericColumnConverter
  | .datetimeIso => .datetimeIsoConverter
  | .datetimeFmt f => .datetimeColumnConverter f f.kind
  | .stringConv => .stringColumnConverter

/-- Structured diagnostic records, one constructor per warning message of
the resolver (design note of spec section 9: warnings modelled as a
collected sequence of structured records).  In message order the
constructors stand for: the empty-entry count message, the
failed-conversion message, the assuming-UTC mixed-timezone message, the
pure-dates-without-times message, the pure-times-without-dates message and
the maybe-intended-as-datetime message. -/
inductive Diagnostic
  | emptyEntries (name : String) (empty total : Nat)
  | couldNotConvertSome (name : String) (conv : ConverterDesc)
      (invalid total : Nat)
  | mixedTimezoneAssumingUtc (name : String)
  | pureDatesWithoutTimes (name : String)
  | pureTimesWithoutDates (name : String)
  | maybeDateTimeColumn (name : String)
  deriving DecidableEq, Repr

/-- Modelled from the spec: the fixed multilingual list of date and time
suggestive words of the heuristic label check (spec section 4.2 step 6
names these English and German words). -/
def dateTimeWords : List String :=
  ["year", "jahr", "month", "monat", "day", "tag", "date", "datum"]

/-- ASCII lower casing of one character. -/
def lowerChar (c : Char) : Char :=
  if 65 ≤ c.toNat ∧ c.toNat ≤ 90 then Char.ofNat (c.toNat + 32) else c

/-- ASCII lower casing of a string. -/
def lowerString (s : String) : String := ⟨s.data.map lowerChar⟩

/-- A column name matches the date and time word list, case-insensitively
(the tests use the capitalized German words). -/
def isDateTimeWord (name : String) : Bool :=
  dateTimeWords.contains (lowerString name)

/-- Timezone character of the converted column for a winning converter. -/
def dtypeTzFor (cells : List RawCell) : Converter → Option DTypeTz
  | .datetimeIso => some (if isoAnyTz cells then .utc else .naive)
  | .datetimeFmt _ => some .naive
  | _ => none

/-- The full resolver verdict for one column. -/
structure Resolved where
  name : String
  col : List (Option CellValue)
  info : ColumnInfo
  dtypeTz : Option DTypeTz
  validCount : Nat
  nullCount : Nat
  invalidCount : Nat
  warnings : List Diagnostic
  deriving DecidableEq, Repr

/-- Reported failed-conversion count of a column: total minus valid minus
null (the invariant of the ConversionAttempt data model). -/
def invalidCountOf (cells : List RawCell) : Nat :=
  cells.length - countValidRows (winnerOf cells) cells -
    (cells.length - countSomeStr cells)

/-- The diagnostics of the resolver for one column, in the order pinned by
the tests: mixed-timezone warning of the counting phase, pure-date or
pure-time warning of the accepted pattern, empty-entry warning,
mixed-timezone warning of the conversion phase, failed-conversion warning,
maybe-datetime label warning. -/
def resolverWarnings (name : String) (cells : List RawCell) :
    List Diagnostic :=
  let total := cells.length
  let nullCount := total - countSomeStr cells
  let best := bestConverter (columnCounts cells)
  let winner := winnerOf cells
  (if isoMixedTz cells then [Diagnostic.mixedTimezoneAssumingUtc name]
   else []) ++
  (if majorityAccepted cells ∧ best.fmtKind = some DatetimeKind.DATE then
     [Diagnostic.pureDatesWithoutTimes name]
   else if majorityAccepted cells ∧ best.fmtKind = some DatetimeKind.TIME then
     [Diagnostic.pureTimesWithoutDates name]
   else []) ++
  (if 0 < nullCount then [Diagnostic.emptyEntries name nullCount total]
   else []) ++
  (if winner = Converter.datetimeIso ∧ isoMixedTz cells then
     [Diagnostic.mixedTimezoneAssumingUtc name]
   else []) ++
  (if 0 < invalidCountOf cells then
     [Diagnostic.couldNotConvertSome name (describeConverter winner)
       (invalidCountOf cells) total]
   else []) ++
  (if isDateTimeWord name ∧ ¬ (infoFor cells winner).isDatetime then
     [Diagnostic.maybeDateTimeColumn name]
   else [])

/-- Modelled from the spec: the column type resolver of spec section 4.2.
Counting pass over the fixed precedence list, winner selection with
majority policy and time-of-day demotion, full conversion by the winner,
reported counts, and the collected diagnostics. -/
def resolveColumn (name : String) (cells : List RawCell) : Resolved :=
  { name := name
    col := convertColumn (winnerOf cells) cells
    info := infoFor cells (winnerOf cells)
    dtypeTz := dtypeTzFor cells (winnerOf cells)
    validCount := countValidRows (winnerOf cells) cells
    nullCount := cells.length - countSomeStr cells
    invalidCount := invalidCountOf cells
    warnings := resolverWarnings name cells }

/-! ## Concrete scenario columns from the spec and the tests -/

/-- The repeating three-row block of the mixed-datetime scenario of spec
section 8 and test_determine_mixed_datetimes2. -/
def mixedFormatsBlock : List RawCell :=
  [some "01.03.1979 03:14", some "2016-03-01 00:03:14",
   some "01.03.1979 01:13"]

/-- The mixed-datetime input exactly as written in the claim and in spec
section 8: the block repeated 25 times, then three nulls, then the letter
Z.  This literal list has 79 rows. -/
def mixedFormatsColumn79 : List RawCell :=
  (List.replicate 25 mixedFormatsBlock).flatten ++ List.replicate 3 none ++
    [some "Z"]

/-- The mixed-datetime input of test_determine_mixed_datetimes2, which
additionally starts with the letter A and therefore has 80 rows. -/
def mixedFormatsColumn80 : List RawCell := some "A" :: mixedFormatsColumn79

/-- The ISO column with one uniform timezone offset of plus one hour, from
test_determine_datetime_iso_YmdTHMS_TZ. -/
def isoUniformOffsetColumn : List RawCell :=
  [some "20160301T00:03:14+0100", some "19970402T00:26:57+0100",
   some "20450630T13:29:53+0100"]

/-- The ISO column with entries partially with and without timezone, from
test_determine_datetime_iso_YmdTHMS_TZ_partially. -/
def isoPartialTzColumn : List RawCell :=
  [some "20160301T00:03:14+0100", some "20450630T13:29:53+0300",
   some "20450607T03:30:00", some "20450607T04:30:00", some "2024"]

/-- A pure time-of-day column (test_determine_datetime_de_HMS). -/
def pureTimesColumn : List RawCell :=
  [some "00:03:14", some "00:26:57", some "13:29:53"]

/-- A pure date column (test_determine_datetime_de_dmY). -/
def pureDatesColumn : List RawCell :=
  [some "01.03.2016", some "02.04.1997", some "30.06.2045"]

/-- A numeric column with one unparseable entry. -/
def mixedNumberColumn : List RawCell := [some "1", some "2", some "A"]

/-! ## Helper lemmas -/

theorem isSome_convertCellWith (c : Converter) (b : Bool) (s : String) :
    (convertCellWith c b s).isSome = cellParsesWith c s := by
  cases c <;> simp [convertCellWith, cellParsesWith]

theorem countSome_map_bind (c : Converter) (b : Bool) :
    ∀ cells : List RawCell,
      countSomeCells (cells.map (fun oc => oc.bind (convertCellWith c b))) =
        countValidRows c cells
  | [] => rfl
  | none :: rest => by
      simpa [countSomeCells, countValidRows, List.filterMap_cons] using
        countSome_map_bind c b rest
  | some s :: rest => by
      have ih := countSome_map_bind c b rest
      have hs := isSome_convertCellWith c b s
      cases hk : convertCellWith c b s with
      | none =>
          rw [hk] at hs
          simp only [countSomeCells, countValidRows, List.map_cons,
            List.filterMap_cons, Option.some_bind, id_eq, List.countP_cons,
            List.filterMap_map, Function.comp, CompTriple.comp_eq]
            at ih ⊢
          rw [hk]
          simp [← hs, ih]
      | some v =>
          rw [hk] at hs
          simp only [countSomeCells, countValidRows, List.map_cons,
            List.filterMap_cons, Option.some_bind, id_eq, List.countP_cons,
            List.filterMap_map, Function.comp, CompTriple.comp_eq]
            at ih ⊢
          rw [hk]
          simp [← hs, ih]

theorem countSome_convertColumn (c : Converter) (cells : List RawCell) :
    countSomeCells (convertColumn c cells) = countValidRows c cells :=
  countSome_map_bind c (isoAnyTz cells) cells

theorem forall2_map_none (f : RawCell → Option CellValue) (hf : f none = none) :
    ∀ cells : List RawCell,
      List.Forall₂ (fun src out => src = none → out = none) cells
        (cells.map f)
  | [] => .nil
  | _ :: rest => .cons (fun h => h ▸ hf) (forall2_map_none f hf rest)

theorem countValidRows_le_countSomeStr (c : Converter) (cells : List RawCell) :
    countValidRows c cells ≤ countSomeStr cells :=
  List.countP_le_length _

theorem countSomeStr_le_length (cells : List RawCell) :
    countSomeStr cells ≤ cells.length :=
  List.length_filterMap_le id cells

theorem mem_ite_nil {p : Prop} [Decidable p] {a b : Diagnostic} :
    (a ∈ if p then [b] else []) ↔ p ∧ a = b := by
  by_cases h : p <;> simp [h]

theorem count_ite_nil {p : Prop} [Decidable p] (a b : Diagnostic) :
    List.count a (if p then [b] else []) = if p ∧ a = b then 1 else 0 := by
  by_cases h : p <;> by_cases h2 : a = b <;>
    simp [h, h2, List.count_cons, List.count_nil]

theorem firstMax_ne_none (cnt : Converter → Nat) (x : Converter)
    (xs : List Converter) : firstMax cnt (x :: xs) ≠ none := by
  cases h : firstMax cnt xs with
  | none => simp [firstMax, h]
  | some b =>
      simp only [firstMax, h]
      split <;> simp

theorem firstMax_spec (cnt : Converter → Nat) :
    ∀ l : List Converter,
      l.Pairwise (fun a b => converterIndex a < converterIndex b) →
      ∀ b, firstMax cnt l = some b →
      ∀ c ∈ l, cnt c ≤ cnt b ∧
        (cnt c = cnt b → converterIndex b ≤ converterIndex c) := by
  intro l
  induction l with
  | nil => intro _ b hb; simp [firstMax] at hb
  | cons a rest ih =>
      intro hp b hb c hc
      have ha := (List.pairwise_cons.mp hp).1
      have hrest := (List.pairwise_cons.mp hp).2
      cases hfm : firstMax cnt rest with
      | none =>
          simp only [firstMax, hfm, Option.some.injEq] at hb
          subst hb
          rcases List.mem_cons.mp hc with rfl | hcr
          · exact ⟨Nat.le_refl _, fun _ => Nat.le_refl _⟩
          · rcases rest with _ | ⟨x, xs⟩
            · simp at hcr
            · exact absurd hfm (firstMax_ne_none cnt x xs)
      | some b0 =>
          simp only [firstMax, hfm] at hb
          by_cases hlt : cnt a < cnt b0
          · rw [if_pos hlt, Option.some.injEq] at hb
            subst hb
            rcases List.mem_cons.mp hc with rfl | hcr
            · exact ⟨Nat.le_of_lt hlt, fun he => absurd he (Nat.ne_of_lt hlt)⟩
            · exact ih hrest b0 hfm c hcr
          · rw [if_neg hlt, Option.some.injEq] at hb
            subst hb
            have hba : cnt b0 ≤ cnt a := Nat.le_of_not_lt hlt
            rcases List.mem_cons.mp hc with rfl | hcr
            · exact ⟨Nat.le_refl _, fun _ => Nat.le_refl _⟩
            · have hc0 := ih hrest b0 hfm c hcr
              exact ⟨Nat.le_trans hc0.1 hba,
                fun _ => Nat.le_of_lt (ha c hcr)⟩

theorem converterList_sorted :
    converterList.Pairwise (fun a b => converterIndex a < converterIndex b) := by
  simp [converterList, List.pairwise_cons, converterIndex]

theorem firstMax_converterList (cnt : Converter → Nat) :
    firstMax cnt converterList = some (bestConverter cnt) := by
  cases h : firstMax cnt converterList with
  | none => exact absurd h (firstMax_ne_none cnt _ _)
  | some b => simp [bestConverter, h]

theorem foldl_add_init (f : List TemporalConsistency → Nat) :
    ∀ (l : List (List TemporalConsistency)) (n : Nat),
      l.foldl (fun acc r => acc + f r) n =
        n + l.foldl (fun acc r => acc + f r) 0
  | [], n => by simp
  | a :: l, n => by
      have h1 := foldl_add_init f l (n + f a)
      have h2 := foldl_add_init f l (0 + f a)
      simp only [List.foldl_cons] at *
      omega

theorem gapsAt_nil (s : TimeScale) : gapsAt [] s = 0 := rfl

theorem abundanciesAt_nil (s : TimeScale) : abundanciesAt [] s = 0 := rfl

theorem sumNumberOfGaps_cons (r : List TemporalConsistency)
    (cols : List (List TemporalConsistency)) (s : TimeScale) :
    sumNumberOfGaps (r :: cols) s = gapsAt r s + sumNumberOfGaps cols s := by
  have h := foldl_add_init (fun records => gapsAt records s) cols (0 + gapsAt r s)
  simp only [sumNumberOfGaps, List.foldl_cons]
  omega

theorem sumDifferentAbundancies_cons (r : List TemporalConsistency)
    (cols : List (List TemporalConsistency)) (s : TimeScale) :
    sumDifferentAbundancies (r :: cols) s =
      abundanciesAt r s + sumDifferentAbundancies cols s := by
  have h := foldl_add_init (fun records => abundanciesAt records s) cols
    (0 + abundanciesAt r s)
  simp only [sumDifferentAbundancies, List.foldl_cons]
  omega

theorem sumNumberOfGaps_filter (cols : List (List TemporalConsistency))
    (s : TimeScale) :
    sumNumberOfGaps (cols.filter (fun r => !r.isEmpty)) s =
      sumNumberOfGaps cols s := by
  induction cols with
  | nil => rfl
  | cons r rest ih =>
      by_cases h : r.isEmpty
      · have hr : r = [] := List.isEmpty_iff.mp h
        subst hr
        simp only [List.filter_cons, List.isEmpty_nil, Bool.not_true,
          Bool.false_eq_true, if_false, ih, sumNumberOfGaps_cons, gapsAt_nil,
          Nat.zero_add]
      · have hb : (!r.isEmpty) = true := by simp [h]
        simp only [List.filter_cons, hb, if_true, sumNumberOfGaps_cons, ih]

theorem sumDifferentAbundancies_filter (cols : List (List TemporalConsistency))
    (s : TimeScale) :
    sumDifferentAbundancies (cols.filter (fun r => !r.isEmpty)) s =
      sumDifferentAbundancies cols s := by
  induction cols with
  | nil => rfl
  | cons r rest ih =>
      by_cases h : r.isEmpty
      · have hr : r = [] := List.isEmpty_iff.mp h
        subst hr
        simp only [List.filter_cons, List.isEmpty_nil, Bool.not_true,
          Bool.false_eq_true, if_false, ih, sumDifferentAbundancies_cons,
          abundanciesAt_nil, Nat.zero_add]
      · have hb : (!r.isEmpty) = true := by simp [h]
        simp only [List.filter_cons, hb, if_true, sumDifferentAbundancies_cons,
          ih]

/-! ## Projection lemmas for the resolver -/

theorem resolveColumn_col (name : String) (cells : List RawCell) :
    (resolveColumn name cells).col = convertColumn (winnerOf cells) cells :=
  rfl

theorem resolveColumn_info (name : String) (cells : List RawCell) :
    (resolveColumn name cells).info = infoFor cells (winnerOf cells) := rfl

theorem resolveColumn_dtypeTz (name : String) (cells : List RawCell) :
    (resolveColumn name cells).dtypeTz = dtypeTzFor cells (winnerOf cells) :=
  rfl

theorem resolveColumn_validCount (name : String) (cells : List RawCell) :
    (resolveColumn name cells).validCount =
      countValidRows (winnerOf cells) cells := rfl

theorem resolveColumn_nullCount (name : String) (cells : List RawCell) :
    (resolveColumn name cells).nullCount =
      cells.length - countSomeStr cells := rfl

theorem resolveColumn_invalidCount (name : String) (cells : List RawCell) :
    (resolveColumn name cells).invalidCount = invalidCountOf cells := rfl

theorem resolveColumn_warnings (name : String) (cells : List RawCell) :
    (resolveColumn name cells).warnings = resolverWarnings name cells := rfl

theorem mem_ite_ite_nil {p q : Prop} [Decidable p] [Decidable q]
    {a x y : Diagnostic} :
    (a ∈ if p then [x] else if q then [y] else []) ↔
      (p ∧ a = x) ∨ (¬ p ∧ q ∧ a = y) := by
  by_cases hp : p <;> by_cases hq : q <;> simp [hp, hq]

theorem count_ite_ite_nil {p q : Prop} [Decidable p] [Decidable q]
    (a x y : Diagnostic) :
    List.count a (if p then [x] else if q then [y] else []) =
      if p ∧ a = x then 1 else if ¬ p ∧ q ∧ a = y then 1 else 0 := by
  by_cases hp : p <;> by_cases hq : q <;>
    simp [hp, hq, List.count_singleton', beq_iff_eq] <;>
    exact if_congr eq_comm rfl rfl

theorem winnerOf_eq_cases (cells : List RawCell) :
    winnerOf cells = Converter.stringConv ∨
      (winnerOf cells = bestConverter (columnCounts cells) ∧
        majorityAccepted cells = true) := by
  by_cases h : majorityAccepted cells = true ∧
      (bestConverter (columnCounts cells)).fmtKind ≠ some DatetimeKind.TIME
  · exact Or.inr ⟨by simp [winnerOf, h], h.1⟩
  · exact Or.inl (by simp [winnerOf, h])

theorem forall2_map_pred {P : RawCell → Option CellValue → Prop}
    (f : RawCell → Option CellValue) (hf : ∀ oc, P oc (f oc)) :
    ∀ cells : List RawCell, List.Forall₂ P cells (cells.map f)
  | [] => .nil
  | oc :: rest => .cons (hf oc) (forall2_map_pred f hf rest)

theorem convert_none_iff (c : Converter) (b : Bool) (s : String) :
    convertCellWith c b s = none ↔ cellParsesWith c s = false := by
  have h := isSome_convertCellWith c b s
  cases hk : convertCellWith c b s <;> rw [hk] at h <;> simp_all

/-! ## Escaping lemmas (edps/types.py) -/

mutual

theorem escapedOf_escape :
    ∀ d : PyData, EscapedOf d (recursively_escape_strings d)
  | .none => .none
  | .bool b => .bool b
  | .datetime t => .datetime t
  | .url s => .url s
  | .str s => .str s
  | .list items => .list (escapedListOf_escape items)
  | .dict entries => .dict (escapedEntriesOf_escape entries)
  | .model fields => .model (escapedEntriesOf_escape fields)

theorem escapedListOf_escape :
    ∀ l : List PyData, EscapedListOf l (escapeList l)
  | [] => .nil
  | x :: xs => .cons (escapedOf_escape x) (escapedListOf_escape xs)

theorem escapedEntriesOf_escape :
    ∀ l : List (String × PyData), EscapedEntriesOf l (escapeEntries l)
  | [] => .nil
  | (_, v) :: xs => .cons (escapedOf_escape v) (escapedEntriesOf_escape xs)

end

/-! ## Claim theorems -/

/-- C10: constructing a UserProvidedEdpData model HTML-escapes every string
reachable in the input data, including strings nested inside lists, dicts
and nested models, so each string field of the validated model equals
html.escape of the supplied value (for example the less-than sign becomes
the lt entity reference), while None, bool, datetime and URL values pass
through unchanged. -/
theorem user_data_strings_escaped :
    (∀ d : PyData, EscapedOf d (recursively_escape_strings d)) ∧
    htmlEscape "<" = "&lt;" ∧
    recursively_escape_strings (.str "<") = .str "&lt;" ∧
    recursively_escape_strings
        (.model [("name", .str "<"), ("tags", .list [.str "a&b"]),
          ("freely", .bool true)]) =
      .model [("name", .str "&lt;"), ("tags", .list [.str "a&amp;b"]),
        ("freely", .bool true)] :=
  ⟨escapedOf_escape, rfl, rfl, rfl⟩

/-- C1 (counterexample): the claimed periodicity policy, the largest time
unit whose summed numberOfGaps is zero, applied to the einfahrt
temporal-consistency records asserted by the repository test suite, yields
years, while test_analyse_pickle asserts the periodicity hours for these
records (days, weeks, months and years all have zero gaps there).  The
claimed zero-gap policy therefore contradicts the behaviour the repository
pins down. -/
theorem zero_gap_policy_contradicts_pickle_test :
    get_overall_temporal_consistency determine_periodicity [einfahrtRecords] =
      some TimeScale.years ∧
    einfahrtExpectedPeriodicity = some TimeScale.hours ∧
    some TimeScale.years ≠ some TimeScale.hours :=
  ⟨by decide, rfl, by decide⟩

/-- C1 (amended): the service sums numberOfGaps and differentAbundancies
component-wise per time scale across all temporal-consistency records of
all datetime columns (columns without records are skipped and contribute
nothing) and passes the sums to determine_periodicity, whatever its
selection policy is; when no column has any records the aggregate is
absent.  The claimed selection policy itself, the coarsest zero-gap time
unit, is refuted by the counterexample. -/
theorem overall_temporal_consistency_aggregation
    (dp : (TimeScale → Nat) → (TimeScale → Nat) → Option TimeScale)
    (cols : List (List TemporalConsistency)) :
    ((∀ r ∈ cols, r = []) →
      get_overall_temporal_consistency dp cols = none) ∧
    ((∃ r ∈ cols, r ≠ []) →
      get_overall_temporal_consistency dp cols =
        dp (sumNumberOfGaps cols) (sumDifferentAbundancies cols)) := by
  constructor
  · intro h
    have hf : cols.filter (fun records => !records.isEmpty) = [] := by
      rw [List.filter_eq_nil_iff]
      intro a ha
      simp [h a ha]
    simp [get_overall_temporal_consistency, hf]
  · rintro ⟨r, hr, hne⟩
    have hrne : r.isEmpty = false := by
      cases r with
      | nil => exact absurd rfl hne
      | cons a l => rfl
    have hmem : r ∈ cols.filter (fun records => !records.isEmpty) :=
      List.mem_filter.mpr ⟨hr, by simp [hrne]⟩
    have hcond : (cols.filter (fun records => !records.isEmpty)).isEmpty =
        false := by
      cases hfe : cols.filter (fun records => !records.isEmpty) with
      | nil => exact absurd (hfe ▸ hmem) (List.not_mem_nil r)
      | cons a l => rfl
    have h1 : sumNumberOfGaps (cols.filter (fun records => !records.isEmpty))
        = sumNumberOfGaps cols :=
      funext (fun s => sumNumberOfGaps_filter cols s)
    have h2 : sumDifferentAbundancies
          (cols.filter (fun records => !records.isEmpty))
        = sumDifferentAbundancies cols :=
      funext (fun s => sumDifferentAbundancies_filter cols s)
    simp [get_overall_temporal_consistency, hcond, h1, h2]

/-- C1 (witness): the aggregation theorem applied to the einfahrt records
of the pickle test asset. -/
theorem overall_temporal_consistency_aggregation_witness :
    get_overall_temporal_consistency determine_periodicity [einfahrtRecords] =
      determine_periodicity (sumNumberOfGaps [einfahrtRecords])
        (sumDifferentAbundancies [einfahrtRecords]) :=
  (overall_temporal_consistency_aggregation determine_periodicity
    [einfahrtRecords]).2 ⟨einfahrtRecords, by decide, by decide⟩

/-- C7: for every column the resolver output is count-consistent: the
converted column has the same length as the input, null entries in the
source remain null in the output, the converted column non-null length
equals the reported valid count, the three reported counts sum to the
total, and the invalid count can be re-derived from the converted column
null pattern as total minus valid minus null. -/
theorem resolver_count_consistency (name : String) (cells : List RawCell) :
    (resolveColumn name cells).col.length = cells.length ∧
    List.Forall₂ (fun src out => src = none → out = none) cells
      (resolveColumn name cells).col ∧
    countSomeCells (resolveColumn name cells).col =
      (resolveColumn name cells).validCount ∧
    (resolveColumn name cells).validCount +
      (resolveColumn name cells).nullCount +
      (resolveColumn name cells).invalidCount = cells.length ∧
    (resolveColumn name cells).invalidCount =
      cells.length - countSomeCells (resolveColumn name cells).col -
        (resolveColumn name cells).nullCount := by
  have h1 := countValidRows_le_countSomeStr (winnerOf cells) cells
  have h2 := countSomeStr_le_length cells
  have hc := countSome_convertColumn (winnerOf cells) cells
  refine ⟨?_, ?_, ?_, ?_, ?_⟩
  · rw [resolveColumn_col]
    exact List.length_map cells _
  · rw [resolveColumn_col]
    exact forall2_map_none _ rfl cells
  · rw [resolveColumn_col, resolveColumn_validCount]
    exact hc
  · rw [resolveColumn_validCount, resolveColumn_nullCount,
      resolveColumn_invalidCount]
    unfold invalidCountOf
    omega
  · rw [resolveColumn_col, resolveColumn_nullCount,
      resolveColumn_invalidCount, hc]
    unfold invalidCountOf
    omega

/-- C8: individual cells that fail conversion never abort the column: each
non-null cell the winning converter cannot parse becomes null in the typed
output and is counted in the invalid count, and the failed-conversion
warning naming the winner descriptor and the invalid and total counts is
raised exactly when the invalid count is positive; the resolver is a total
function and raises nothing else for such cells. -/
theorem failed_cells_become_null (name : String) (cells : List RawCell) :
    List.Forall₂ (fun src out => ∀ s, src = some s →
        (out = none ↔ cellParsesWith (winnerOf cells) s = false)) cells
      (resolveColumn name cells).col ∧
    (0 < (resolveColumn name cells).invalidCount →
      Diagnostic.couldNotConvertSome name
        (describeConverter (winnerOf cells))
        (resolveColumn name cells).invalidCount cells.length ∈
        (resolveColumn name cells).warnings) ∧
    ((resolveColumn name cells).invalidCount = 0 →
      ∀ n d i t, Diagnostic.couldNotConvertSome n d i t ∉
        (resolveColumn name cells).warnings) := by
  refine ⟨?_, ?_, ?_⟩
  · rw [resolveColumn_col]
    refine forall2_map_pred _ ?_ cells
    intro oc s hoc
    subst hoc
    simpa using convert_none_iff (winnerOf cells) (isoAnyTz cells) s
  · intro h
    rw [resolveColumn_invalidCount] at h
    rw [resolveColumn_warnings, resolveColumn_invalidCount]
    simp [resolverWarnings, mem_ite_nil, mem_ite_ite_nil, h]
  · intro h n d i t
    rw [resolveColumn_invalidCount] at h
    rw [resolveColumn_warnings]
    simp [resolverWarnings, mem_ite_nil, mem_ite_ite_nil, h]

/-- C8 (witness): the failed-conversion warning on a concrete numeric
column with one unparseable entry. -/
theorem failed_cells_become_null_witness :
    Diagnostic.couldNotConvertSome "col"
      ConverterDesc.numericColumnConverter 1 3 ∈
      (resolveColumn "col" mixedNumberColumn).warnings := by
  have h := (failed_cells_become_null "col" mixedNumberColumn).2.1 (by decide)
  exact h

/-- C9: for every column whose name matches the fixed multilingual list of
date and time suggestive words and whose resolved type is not datetime,
the resolver emits the maybe-intended-as-datetime warning; for a column
with such a name whose content resolves to datetime the warning is not
raised. -/
theorem datetime_word_label_check (name : String) (cells : List RawCell)
    (h : isDateTimeWord name = true) :
    ((resolveColumn name cells).info.isDatetime = false →
      Diagnostic.maybeDateTimeColumn name ∈
        (resolveColumn name cells).warnings) ∧
    ((resolveColumn name cells).info.isDatetime = true →
      Diagnostic.maybeDateTimeColumn name ∉
        (resolveColumn name cells).warnings) := by
  constructor
  · intro hinfo
    rw [resolveColumn_info] at hinfo
    rw [resolveColumn_warnings]
    simp [resolverWarnings, mem_ite_nil, mem_ite_ite_nil, h, hinfo]
  · intro hinfo
    rw [resolveColumn_info] at hinfo
    rw [resolveColumn_warnings]
    simp [resolverWarnings, mem_ite_nil, mem_ite_ite_nil, hinfo]

/-- C9 (witness): the warning fires on a numeric column named Jahr and does
not fire on a datetime column named day. -/
theorem datetime_word_label_check_witness :
    Diagnostic.maybeDateTimeColumn "Jahr" ∈
      (resolveColumn "Jahr" (List.replicate 5 (some "2025"))).warnings ∧
    Diagnostic.maybeDateTimeColumn "day" ∉
      (resolveColumn "day" (List.replicate 5 (some "01.03.2024 12:34"))).warnings :=
  ⟨(datetime_word_label_check "Jahr" (List.replicate 5 (some "2025"))
      (by decide)).1 (by decide),
   (datetime_word_label_check "day" (List.replicate 5 (some "01.03.2024 12:34"))
      (by decide)).2 (by decide)⟩

/-- C6: when the winning converter has zero valid rows, or no converter of
the precedence list reaches a clear majority of the non-null entries (in
particular when three or more datetime formats split the support), the
resolver falls back to the string converter; the fallback is an ordinary
result, not an error, and the full-length converted column is still
produced. -/
theorem no_majority_falls_back_to_string (name : String)
    (cells : List RawCell)
    (h : countValidRows (bestConverter (columnCounts cells)) cells = 0 ∨
      2 * countValidRows (bestConverter (columnCounts cells)) cells ≤
        countSomeStr cells) :
    (resolveColumn name cells).info = ColumnInfo.string ∧
    (resolveColumn name cells).col.length = cells.length := by
  have hmaj : majorityAccepted cells = false := by
    unfold majorityAccepted
    rcases h with h0 | hle
    · rw [h0]
      simp
    · simp only [decide_eq_false_iff_not]
      omega
  have hw : winnerOf cells = Converter.stringConv := by
    simp [winnerOf, hmaj]
  constructor
  · rw [resolveColumn_info, hw]
    rfl
  · rw [resolveColumn_col]
    exact List.length_map cells _

/-- C6 (witness): the string fallback on a column with no clear majority
(three datetime formats with equal support). -/
theorem no_majority_falls_back_to_string_witness :
    (resolveColumn "col"
      [some "01.03.2016 00:03", some "02.04.1997 00:26:57",
       some "30.06.2045"]).info = ColumnInfo.string :=
  (no_majority_falls_back_to_string "col"
    [some "01.03.2016 00:03", some "02.04.1997 00:26:57", some "30.06.2045"]
    (Or.inr (by decide))).1

/-- C4: a column recognized only as time-of-day values is not kept as a
datetime column: it is demoted to the string fallback with the
pure-times-without-dates warning; a column recognized as dates without a
time component is kept as a datetime column of kind DATE with the
pure-dates-without-times warning. -/
theorem pure_time_and_date_policy (name : String) (cells : List RawCell)
    (f : DTFormat)
    (hb : bestConverter (columnCounts cells) = Converter.datetimeFmt f)
    (hm : majorityAccepted cells = true) :
    (f.kind = DatetimeKind.TIME →
      (resolveColumn name cells).info = ColumnInfo.string ∧
      Diagnostic.pureTimesWithoutDates name ∈
        (resolveColumn name cells).warnings) ∧
    (f.kind = DatetimeKind.DATE →
      (resolveColumn name cells).info =
        ColumnInfo.datetime (FormatDesc.pattern f) DatetimeKind.DATE ∧
      Diagnostic.pureDatesWithoutTimes name ∈
        (resolveColumn name cells).warnings) := by
  constructor
  · intro hk
    have hw : winnerOf cells = Converter.stringConv := by
      simp [winnerOf, hb, hm, Converter.fmtKind, hk]
    refine ⟨by rw [resolveColumn_info, hw]; rfl, ?_⟩
    rw [resolveColumn_warnings]
    simp [resolverWarnings, mem_ite_nil, mem_ite_ite_nil, hb,
      Converter.fmtKind, hk, hm]
  · intro hk
    have hw : winnerOf cells = Converter.datetimeFmt f := by
      simp [winnerOf, hb, hm, Converter.fmtKind, hk]
    refine ⟨?_, ?_⟩
    · rw [resolveColumn_info, hw]
      simp [infoFor, hk]
    · rw [resolveColumn_warnings]
      simp [resolverWarnings, mem_ite_nil, mem_ite_ite_nil, hb,
        Converter.fmtKind, hk, hm]

/-- C4 (witness): the policy on a concrete pure-time column and a concrete
pure-date column. -/
theorem pure_time_and_date_policy_witness :
    ((resolveColumn "col" pureTimesColumn).info = ColumnInfo.string ∧
      Diagnostic.pureTimesWithoutDates "col" ∈
        (resolveColumn "col" pureTimesColumn).warnings) ∧
    ((resolveColumn "col" pureDatesColumn).info =
        ColumnInfo.datetime (FormatDesc.pattern DTFormat.deDmY)
          DatetimeKind.DATE ∧
      Diagnostic.pureDatesWithoutTimes "col" ∈
        (resolveColumn "col" pureDatesColumn).warnings) :=
  ⟨(pure_time_and_date_policy "col" pureTimesColumn DTFormat.timeHMS
      (by decide) (by decide)).1 rfl,
   (pure_time_and_date_policy "col" pureDatesColumn DTFormat.deDmY
      (by decide) (by decide)).2 rfl⟩

/-- A column whose ISO offsets are all absent has no mixed offsets. -/
theorem isoMixedTz_false_of_anyTz_false (cells : List RawCell)
    (h : isoAnyTz cells = false) : isoMixedTz cells = false := by
  unfold isoAnyTz at h
  unfold isoMixedTz
  rw [h]
  rfl

/-- C3 (counterexample): on the column of ISO timestamps that all carry the
identical offset of plus one hour (test_determine_datetime_iso_YmdTHMS_TZ),
the converted column is normalized to UTC: its timezone character is UTC,
not the fixed offset of sixty minutes the claim says is preserved, and the
first converted value is the UTC instant 2016-02-29T23:03:14, one hour
before the wall-clock value 2016-03-01T00:03:14 the fixed-offset reading
would keep. -/
theorem iso_uniform_offset_normalized_to_utc :
    (resolveColumn "col" isoUniformOffsetColumn).dtypeTz =
      some DTypeTz.utc ∧
    some DTypeTz.utc ≠ some (DTypeTz.fixedOffset 60) ∧
    (resolveColumn "col" isoUniformOffsetColumn).col.head? =
      some (some (CellValue.dt 1456786994000)) ∧
    epochMillis ⟨2016, 3, 1, 0, 3, 14, 0⟩ = 1456790594000 ∧
    (1456786994000 : Int) ≠ 1456790594000 :=
  ⟨by decide, by decide, by decide, by decide, by decide⟩

/-- C3 (amended): for a column won by the Datetime-ISO converter, whenever
any entry carries an offset (identical offsets included) the converted
column is timezone-aware and every value is normalized to UTC by
subtracting its offset, entries without an offset being assumed UTC; the
assuming-UTC warning is raised exactly twice, once by the counting phase
and once by the conversion phase, precisely when entries partially with
and without offsets are mixed; with uniform offsets or no offsets at all
the warning count is zero, and with no offsets the column stays
timezone-naive. -/
theorem iso_timezone_normalization (name : String) (cells : List RawCell)
    (hw : winnerOf cells = Converter.datetimeIso) :
    (isoAnyTz cells = true →
      (resolveColumn name cells).dtypeTz = some DTypeTz.utc ∧
      (resolveColumn name cells).col = cells.map (fun oc => oc.bind (fun s =>
        (parseIso s.data).map (fun p =>
          CellValue.dt (epochMillis p.1 - p.2.getD 0 * 60000))))) ∧
    (isoAnyTz cells = false →
      (resolveColumn name cells).dtypeTz = some DTypeTz.naive ∧
      (resolveColumn name cells).warnings.count
        (Diagnostic.mixedTimezoneAssumingUtc name) = 0) ∧
    (isoMixedTz cells = true →
      (resolveColumn name cells).warnings.count
        (Diagnostic.mixedTimezoneAssumingUtc name) = 2) ∧
    (isoAnyTz cells = true → isoMixedTz cells = false →
      (resolveColumn name cells).warnings.count
        (Diagnostic.mixedTimezoneAssumingUtc name) = 0) := by
  have hbm : bestConverter (columnCounts cells) = Converter.datetimeIso ∧
      majorityAccepted cells = true := by
    rcases winnerOf_eq_cases cells with h1 | ⟨h2, h3⟩
    · rw [hw] at h1
      exact absurd h1 (by decide)
    · rw [hw] at h2
      exact ⟨h2.symm, h3⟩
  refine ⟨?_, ?_, ?_, ?_⟩
  · intro hAny
    constructor
    · rw [resolveColumn_dtypeTz, hw]
      simp [dtypeTzFor, hAny]
    · rw [resolveColumn_col, hw]
      simp only [convertColumn, hAny]
      rfl
  · intro hAny
    have hm := isoMixedTz_false_of_anyTz_false cells hAny
    constructor
    · rw [resolveColumn_dtypeTz, hw]
      simp [dtypeTzFor, hAny]
    · rw [resolveColumn_warnings]
      simp [resolverWarnings, List.count_append, count_ite_nil,
        count_ite_ite_nil, hm, hbm.1, Converter.fmtKind]
  · intro hm
    rw [resolveColumn_warnings]
    simp [resolverWarnings, List.count_append, count_ite_nil,
      count_ite_ite_nil, hm, hw, hbm.1, Converter.fmtKind]
  · intro _ hm
    rw [resolveColumn_warnings]
    simp [resolverWarnings, List.count_append, count_ite_nil,
      count_ite_ite_nil, hm, hbm.1, Converter.fmtKind]

/-- C3 (witness): the partially-with-and-without-offsets column of the
repository test: the ISO converter wins, offsets are mixed, the warning
count is two and the column is normalized to UTC. -/
theorem iso_timezone_normalization_witness :
    ((resolveColumn "col" isoPartialTzColumn).warnings.count
      (Diagnostic.mixedTimezoneAssumingUtc "col") = 2) ∧
    (resolveColumn "col" isoPartialTzColumn).dtypeTz = some DTypeTz.utc :=
  ⟨(iso_timezone_normalization "col" isoPartialTzColumn
      (by decide)).2.2.1 (by decide),
   ((iso_timezone_normalization "col" isoPartialTzColumn
      (by decide)).1 (by decide)).1⟩

/-- Fitting an unsigned width is monotone in the width. -/
theorem fitsUnsignedBits_mono {w1 w2 : Nat} (h : w1 ≤ w2) (q : Rat)
    (hf : fitsUnsignedBits w1 q = true) : fitsUnsignedBits w2 q = true := by
  simp only [fitsUnsignedBits, Bool.and_eq_true, beq_iff_eq,
    decide_eq_true_eq] at hf ⊢
  obtain ⟨⟨hd, hlo⟩, hhi⟩ := hf
  exact ⟨⟨hd, hlo⟩, lt_of_lt_of_le hhi (pow_le_pow_right₀ (by norm_num) h)⟩

/-- Fitting a signed width is monotone in the width. -/
theorem fitsSignedBits_mono {w1 w2 : Nat} (h1 : 1 ≤ w1) (h : w1 ≤ w2)
    (q : Rat) (hf : fitsSignedBits w1 q = true) :
    fitsSignedBits w2 q = true := by
  simp only [fitsSignedBits, Bool.and_eq_true, beq_iff_eq,
    decide_eq_true_eq] at hf ⊢
  obtain ⟨⟨hd, hlo⟩, hhi⟩ := hf
  have hp : ((2 : Int) ^ (w1 - 1)) ≤ 2 ^ (w2 - 1) :=
    pow_le_pow_right₀ (by norm_num) (by omega)
  exact ⟨⟨hd, le_trans (by omega) hlo⟩, lt_of_lt_of_le hhi hp⟩

/-- All-values unsigned fitting is monotone in the width. -/
theorem all_fitsU_mono (vals : List Rat) {w1 w2 : Nat} (h : w1 ≤ w2)
    (ha : vals.all (fitsUnsignedBits w1) = true) :
    vals.all (fitsUnsignedBits w2) = true := by
  rw [List.all_eq_true] at ha ⊢
  exact fun q hq => fitsUnsignedBits_mono h q (ha q hq)

/-- All-values signed fitting is monotone in the width. -/
theorem all_fitsS_mono (vals : List Rat) {w1 w2 : Nat} (h1 : 1 ≤ w1)
    (h : w1 ≤ w2) (ha : vals.all (fitsSignedBits w1) = true) :
    vals.all (fitsSignedBits w2) = true := by
  rw [List.all_eq_true] at ha ⊢
  exact fun q hq => fitsSignedBits_mono h1 h q (ha q hq)

/-- Contrapositive of unsigned monotonicity. -/
theorem all_fitsU_false_mono (vals : List Rat) {w1 w2 : Nat} (h : w1 ≤ w2)
    (hf : vals.all (fitsUnsignedBits w2) = false) :
    vals.all (fitsUnsignedBits w1) = false := by
  cases hx : vals.all (fitsUnsignedBits w1) with
  | false => rfl
  | true => rw [all_fitsU_mono vals h hx] at hf; cases hf

/-- Contrapositive of signed monotonicity. -/
theorem all_fitsS_false_mono (vals : List Rat) {w1 w2 : Nat} (h1 : 1 ≤ w1)
    (h : w1 ≤ w2) (hf : vals.all (fitsSignedBits w2) = false) :
    vals.all (fitsSignedBits w1) = false := by
  cases hx : vals.all (fitsSignedBits w1) with
  | false => rfl
  | true => rw [all_fitsS_mono vals h1 h hx] at hf; cases hf

/-- C5: for every column resolved as numeric the resolver records the
representation chosen by get_smallest_down_cast_able_type of the parsed
values, and that choice is the smallest safe one: when all values are
non-negative integers the unsigned widths 8, 16, 32, 64 are tried smallest
first, so in particular values within 0 to 255 resolve to the unsigned
8 bit width; otherwise, when all values are integers, the signed widths
smallest first, so values within -128 to 127 resolve to the signed 8 bit
width; otherwise a float width, 32 bit when every value round-trips
exactly in binary32, else 64 bit. -/
theorem numeric_downcast_smallest (vals : List Rat) :
    (∀ (name : String) (cells : List RawCell) (k : NumKind),
      (resolveColumn name cells).info = ColumnInfo.numeric k →
      k = get_smallest_down_cast_able_type (parsedNumerics cells)) ∧
    (vals.all (fun q => isIntVal q && decide (0 ≤ q.num)) = true →
      (vals.all (fitsUnsignedBits 8) = true →
        get_smallest_down_cast_able_type vals = NumKind.uint8) ∧
      (vals.all (fitsUnsignedBits 8) = false →
        vals.all (fitsUnsignedBits 16) = true →
        get_smallest_down_cast_able_type vals = NumKind.uint16) ∧
      (vals.all (fitsUnsignedBits 16) = false →
        vals.all (fitsUnsignedBits 32) = true →
        get_smallest_down_cast_able_type vals = NumKind.uint32) ∧
      (vals.all (fitsUnsignedBits 32) = false →
        vals.all (fitsUnsignedBits 64) = true →
        get_smallest_down_cast_able_type vals = NumKind.uint64)) ∧
    (vals.all (fun q => isIntVal q && decide (0 ≤ q.num)) = false →
      vals.all isIntVal = true →
      (vals.all (fitsSignedBits 8) = true →
        get_smallest_down_cast_able_type vals = NumKind.int8) ∧
      (vals.all (fitsSignedBits 8) = false →
        vals.all (fitsSignedBits 16) = true →
        get_smallest_down_cast_able_type vals = NumKind.int16) ∧
      (vals.all (fitsSignedBits 16) = false →
        vals.all (fitsSignedBits 32) = true →
        get_smallest_down_cast_able_type vals = NumKind.int32) ∧
      (vals.all (fitsSignedBits 32) = false →
        vals.all (fitsSignedBits 64) = true →
        get_smallest_down_cast_able_type vals = NumKind.int64)) ∧
    (vals.all isIntVal = false →
      (vals.all isFloat32Exact = true →
        get_smallest_down_cast_able_type vals = NumKind.float32) ∧
      (vals.all isFloat32Exact = false →
        get_smallest_down_cast_able_type vals = NumKind.float64)) := by
  refine ⟨?_, ?_, ?_, ?_⟩
  · intro name cells k h
    rw [resolveColumn_info] at h
    cases hw : winnerOf cells <;> rw [hw] at h <;> simp [infoFor] at h
    exact h.symm
  · intro h1
    refine ⟨?_, ?_, ?_, ?_⟩
    · intro h8
      unfold get_smallest_down_cast_able_type
      rw [if_pos h1, if_pos h8]
    · intro h8 h16
      unfold get_smallest_down_cast_able_type
      rw [if_pos h1, if_neg (by rw [h8]; simp), if_pos h16]
    · intro h16 h32
      have h8 : vals.all (fitsUnsignedBits 8) = false :=
        all_fitsU_false_mono vals (by omega) h16
      unfold get_smallest_down_cast_able_type
      rw [if_pos h1, if_neg (by rw [h8]; simp), if_neg (by rw [h16]; simp),
        if_pos h32]
    · intro h32 h64
      have h16 : vals.all (fitsUnsignedBits 16) = false :=
        all_fitsU_false_mono vals (by omega) h32
      have h8 : vals.all (fitsUnsignedBits 8) = false :=
        all_fitsU_false_mono vals (by omega) h16
      unfold get_smallest_down_cast_able_type
      rw [if_pos h1, if_neg (by rw [h8]; simp), if_neg (by rw [h16]; simp),
        if_neg (by rw [h32]; simp), if_pos h64]
  · intro h1 h2
    refine ⟨?_, ?_, ?_, ?_⟩
    · intro h8
      unfold get_smallest_down_cast_able_type
      rw [if_neg (by rw [h1]; simp), if_pos h2, if_pos h8]
    · intro h8 h16
      unfold get_smallest_down_cast_able_type
      rw [if_neg (by rw [h1]; simp), if_pos h2, if_neg (by rw [h8]; simp),
        if_pos h16]
    · intro h16 h32
      have h8 : vals.all (fitsSignedBits 8) = false :=
        all_fitsS_false_mono vals (by omega) (by omega) h16
      unfold get_smallest_down_cast_able_type
      rw [if_neg (by rw [h1]; simp), if_pos h2, if_neg (by rw [h8]; simp),
        if_neg (by rw [h16]; simp), if_pos h32]
    · intro h32 h64
      have h16 : vals.all (fitsSignedBits 16) = false :=
        all_fitsS_false_mono vals (by omega) (by omega) h32
      have h8 : vals.all (fitsSignedBits 8) = false :=
        all_fitsS_false_mono vals (by omega) (by omega) h16
      unfold get_smallest_down_cast_able_type
      rw [if_neg (by rw [h1]; simp), if_pos h2, if_neg (by rw [h8]; simp),
        if_neg (by rw [h16]; simp), if_neg (by rw [h32]; simp), if_pos h64]
  · intro h2
    have h1 : vals.all (fun q => isIntVal q && decide (0 ≤ q.num)) = false := by
      cases hx : vals.all (fun q => isIntVal q && decide (0 ≤ q.num)) with
      | false => rfl
      | true =>
          rw [List.all_eq_true] at hx
          have : vals.all isIntVal = true := by
            rw [List.all_eq_true]
            intro q hq
            have := hx q hq
            simp only [Bool.and_eq_true] at this
            exact this.1
          rw [this] at h2
          cases h2
    constructor
    · intro hf
      unfold get_smallest_down_cast_able_type
      rw [if_neg (by rw [h1]; simp), if_neg (by rw [h2]; simp), if_pos hf]
    · intro hf
      unfold get_smallest_down_cast_able_type
      rw [if_neg (by rw [h1]; simp), if_neg (by rw [h2]; simp),
        if_neg (by rw [hf]; simp)]

/-- C5 (witness): the downcast choice on the concrete value lists of the
repository downcast tests and on a binary32-exact fraction. -/
theorem numeric_downcast_smallest_witness :
    get_smallest_down_cast_able_type [0, 127, 255] = NumKind.uint8 ∧
    get_smallest_down_cast_able_type [0, 127, -128] = NumKind.int8 ∧
    get_smallest_down_cast_able_type [0, Rat.mk' 1 2] = NumKind.float32 :=
  ⟨((numeric_downcast_smallest [0, 127, 255]).2.1 (by decide)).1 (by decide),
   (((numeric_downcast_smallest [0, 127, -128]).2.2.1 (by decide)
      (by decide)).1 (by decide)),
   ((numeric_downcast_smallest [0, Rat.mk' 1 2]).2.2.2
      (by decide)).1 (by decide)⟩

/-- C2 (counterexample): the input list written in the claim, the
three-value block repeated twenty-five times followed by three nulls and
the letter Z, has 79 rows, not 80, and its null plus invalid entries sum
to 29, not the claimed 30 (the repository test additionally prepends the
letter A, giving 80 rows and 30 null-or-invalid entries). -/
theorem mixed_formats_literal_row_count :
    mixedFormatsColumn79.length = 79 ∧
    (resolveColumn "col" mixedFormatsColumn79).nullCount +
      (resolveColumn "col" mixedFormatsColumn79).invalidCount = 29 ∧
    (79 : Nat) ≠ 80 ∧ (29 : Nat) ≠ 30 :=
  ⟨by decide, by decide, by decide, by decide⟩

/-- C2 (amended): on the literal 79-row input of the claim the resolver
chooses the German day-first pattern with hours and minutes, reporting 50
valid, 3 null and 26 invalid entries and raising exactly the two warnings
in order, the null-count warning then the invalid-count warning; on the
80-row input of the repository test, with the extra leading letter A, the
same format wins with 50 valid and 30 null-or-invalid entries and the same
two warnings; and for every counting function the chosen converter is the
earliest one of the fixed precedence list achieving the maximal count. -/
theorem mixed_formats_scenario_and_tie_break (cnt : Converter → Nat) :
    ((resolveColumn "col" mixedFormatsColumn79).info =
        ColumnInfo.datetime (FormatDesc.pattern DTFormat.deDmYHM)
          DatetimeKind.DATETIME ∧
      (resolveColumn "col" mixedFormatsColumn79).validCount = 50 ∧
      (resolveColumn "col" mixedFormatsColumn79).nullCount = 3 ∧
      (resolveColumn "col" mixedFormatsColumn79).invalidCount = 26 ∧
      (resolveColumn "col" mixedFormatsColumn79).warnings =
        [Diagnostic.emptyEntries "col" 3 79,
         Diagnostic.couldNotConvertSome "col"
           (ConverterDesc.datetimeColumnConverter DTFormat.deDmYHM
             DatetimeKind.DATETIME) 26 79]) ∧
    ((resolveColumn "col" mixedFormatsColumn80).info =
        ColumnInfo.datetime (FormatDesc.pattern DTFormat.deDmYHM)
          DatetimeKind.DATETIME ∧
      (resolveColumn "col" mixedFormatsColumn80).validCount = 50 ∧
      (resolveColumn "col" mixedFormatsColumn80).nullCount +
        (resolveColumn "col" mixedFormatsColumn80).invalidCount = 30 ∧
      (resolveColumn "col" mixedFormatsColumn80).warnings =
        [Diagnostic.emptyEntries "col" 3 80,
         Diagnostic.couldNotConvertSome "col"
           (ConverterDesc.datetimeColumnConverter DTFormat.deDmYHM
             DatetimeKind.DATETIME) 27 80]) ∧
    (∀ c ∈ converterList,
      cnt c ≤ cnt (bestConverter cnt) ∧
      (cnt c = cnt (bestConverter cnt) →
        converterIndex (bestConverter cnt) ≤ converterIndex c)) := by
  refine ⟨⟨by decide, by decide, by decide, by decide, by decide⟩,
    ⟨by decide, by decide, by decide, by decide⟩, ?_⟩
  intro c hc
  exact firstMax_spec cnt converterList converterList_sorted
    (bestConverter cnt) (firstMax_converterList cnt) c hc

/-- C2 (witness): the tie-break clause applied to the constant-zero
counting function: every converter ties, and the selected converter
precedes the ISO converter in the precedence order. -/
theorem mixed_formats_scenario_and_tie_break_witness :
    Converter.datetimeIso ∈ converterList ∧
    converterIndex (bestConverter (fun _ => 0)) ≤
      converterIndex Converter.datetimeIso := by
  have h := (mixed_formats_scenario_and_tie_break (fun _ => 0)).2.2
    Converter.datetimeIso (by decide)
  exact ⟨by decide, h.2 rfl⟩

end EDPS
